import Mathlib

/-!
Verification of the dropzone upload service (`src/main.py`).

The Python source is shallowly embedded: pure computations (string
substitution, message formatting, path joining, classification of a
subprocess outcome) become Lean functions, and the effectful parts
(reading the request, the beets subprocess, the Navidrome HTTP call,
filesystem writes) are driven by explicit environment/oracle records,
with the handler returning a result record that also carries a trace of
the side effects it performed (files written, import/rescan calls).
-/

namespace Dropzone

/-! ## Generic list machinery (used for substring reasoning) -/

/-- Boolean test: `p` is a prefix of `l`. -/
def isPreB [DecidableEq α] : List α → List α → Bool
  | [], _ => true
  | _ :: _, [] => false
  | a :: as, b :: bs => a = b && isPreB as bs

/-- Boolean test: `m` occurs as a contiguous sublist (substring) of `l`. -/
def isSubB [DecidableEq α] : List α → List α → Bool
  | m, [] => m.isEmpty
  | m, c :: cs => isPreB m (c :: cs) || isSubB m cs

/-- `p` is a prefix of `l`. -/
def isPre (p l : List α) : Prop := ∃ t, l = p ++ t

/-- `s` is a suffix of `l`. -/
def isSuf (s l : List α) : Prop := ∃ t, l = t ++ s

/-- `m` occurs as a contiguous sublist of `l`. -/
def occursIn (m l : List α) : Prop := ∃ u v, l = u ++ m ++ v

/-- Boolean test: no nonempty suffix of `pat` is a prefix of `t`. -/
def chkSufPre [DecidableEq α] : List α → List α → Bool
  | [], _ => true
  | c :: rest, t => !(isPreB (c :: rest) t) && chkSufPre rest t

/-- Python `str.replace(pat, rep)`: replace the leftmost-first,
non-overlapping occurrences of `pat` by `rep`, scanning left to right and
not rescanning replaced text.  (Only used with nonempty `pat`.) -/
def repl [DecidableEq α] (pat rep : List α) (l : List α) : List α :=
  match l with
  | [] => []
  | c :: cs =>
    if pat ≠ [] ∧ isPreB pat (c :: cs) = true then
      rep ++ repl pat rep (List.drop (pat.length - 1) cs)
    else
      c :: repl pat rep cs
termination_by l.length
decreasing_by
  · simp only [List.length_drop, List.length_cons]
    omega
  · simp only [List.length_cons]
    omega

/-- Python `sep.join(parts)`. -/
def pyJoin (sep : String) : List String → String
  | [] => ""
  | [x] => x
  | x :: xs => x ++ sep ++ pyJoin sep xs

/-! ## Configuration (environment-derived constants, lines 21-38) -/

structure Config where
  dropzone_user : String := "admin"
  dropzone_password : String := "changeme"
  music_dir : String := "/data/music"
  inbox_dir : String := "/data/inbox"
  snippets_file : String := "/data/snippets.txt"
  beets_dir : String := "/config/beets"
  puid : Option Nat := none
  pgid : Option Nat := none

def defaultConfig : Config := {}

/-! ## Credential checker (`require_auth`, lines 65-74) -/

structure Credentials where
  username : String
  password : String

inductive AuthOutcome where
  | proceed (username : String)
  | unauthorized (statusCode : Nat) (detail : String) (wwwAuthenticate : String)
deriving DecidableEq

/-- `require_auth`: `secrets.compare_digest` on the UTF-8 encodings of two
strings is equality of the byte sequences, i.e. equality of the strings. -/
def require_auth (cfg : Config) (c : Credentials) : AuthOutcome :=
  let ok_user := c.username = cfg.dropzone_user
  let ok_pass := c.password = cfg.dropzone_password
  if ¬ (ok_user ∧ ok_pass) then
    AuthOutcome.unauthorized 401 "Unauthorized" "Basic"
  else
    AuthOutcome.proceed c.username

/-! ## Config resolver (lines 125-131) -/

def beetsPlaceholder : String := "${BEETS_DIR}"

def musicPlaceholder : String := "${MUSIC_DIR}"

/-- Line 127: `raw.replace("${BEETS_DIR}", BEETS_DIR).replace("${MUSIC_DIR}", str(MUSIC_DIR))`. -/
def resolveConfig (cfg : Config) (raw : String) : String :=
  String.mk
    (repl musicPlaceholder.data cfg.music_dir.data
      (repl beetsPlaceholder.data cfg.beets_dir.data raw.data))

/-! ## Import invoker (`import_music_with_beets`, lines 104-165) -/

/-- Outcome of the `subprocess.run` call for `beet ... import -q <dir>`. -/
inductive SubprocessOutcome where
  | completed (returncode : Int) (stdout stderr : String)
  | fileNotFound
  | timeout
  | otherError (message : String)

/-- Oracle for one invocation of `import_music_with_beets`:
`configText` is the content read from `BEETS_CONFIG` (`none` = `open`
raises `FileNotFoundError`); `tmpWriteError` is `some e` when
`tmp.write(resolved)` raises with message `e` after
`NamedTemporaryFile(delete=False)` has already created the file on disk
but before `resolved_config = tmp.name` is assigned (lines 128-130);
`outcome` is what `subprocess.run` does; `unlinkRaises` is whether the
`os.unlink` in the `finally` clause raises an `OSError` (swallowed by
the `except OSError: pass` at lines 162-165, leaving the file behind). -/
structure ImportEnv where
  configText : Option String
  tmpWriteError : Option String
  outcome : SubprocessOutcome
  unlinkRaises : Bool

/-- Line 145: `timeout=300`. -/
def beetsImportTimeoutSeconds : Nat := 300

/-- Classification of the subprocess outcome into `(ok, message)`
(lines 149-159, including the `except` handlers). -/
def beetsResult (o : SubprocessOutcome) : Bool × String :=
  match o with
  | .completed rc out err =>
    if rc = 0 then
      (true, if out = "" then "Beets import complete." else out)
    else
      let detail := pyJoin "\n" (List.filter (fun s => !(s == "")) [err, out])
      (false, if detail = "" then "Beets import failed." else detail)
  | .fileNotFound => (false, "beets not found — is it installed in the container?")
  | .timeout => (false, "Beets import timed out after 5 minutes.")
  | .otherError e => (false, e)

/-- Result of the `try` body of `import_music_with_beets` together with
the value of the `resolved_config` variable when the `finally` clause
runs, and whether `NamedTemporaryFile` created a file on disk.  The
temporary file is represented by its resolved content. -/
structure ImportBodyOut where
  result : Bool × String
  resolved_config : Option String
  tmpFileCreated : Bool

def importTryBody (cfg : Config) (env : ImportEnv) : ImportBodyOut :=
  match env.configText with
  | none =>
    -- `open(BEETS_CONFIG)` raises `FileNotFoundError`, caught at line 154;
    -- no temp file was created and `resolved_config` is still `None`.
    { result := (false, "beets not found — is it installed in the container?")
      resolved_config := none
      tmpFileCreated := false }
  | some raw =>
    let resolved := resolveConfig cfg raw
    match env.tmpWriteError with
    | some e =>
      -- `NamedTemporaryFile(delete=False)` created the file, then
      -- `tmp.write` raised before `resolved_config = tmp.name` was
      -- assigned; caught by `except Exception as e` (line 158), with
      -- `resolved_config` still `None`.
      { result := (false, e)
        resolved_config := none
        tmpFileCreated := true }
    | none =>
      { result := beetsResult env.outcome
        resolved_config := some resolved
        tmpFileCreated := true }

structure ImportOut where
  ok : Bool
  msg : String
  tmpConfigCreated : Bool
  resolvedConfigSet : Bool
  unlinkCalled : Bool
  tmpConfigExistsAfter : Bool
  resolvedText : Option String

/-- `import_music_with_beets`: run the `try` body, then the `finally`
clause (lines 160-165): `if resolved_config:` guards an `os.unlink`
wrapped in `try ... except OSError: pass`, so the unlink is attempted
exactly when the `resolved_config` variable was assigned, and a failing
unlink is swallowed, leaving the file on disk. -/
def runImport (cfg : Config) (env : ImportEnv) : ImportOut :=
  let body := importTryBody cfg env
  let unlinkCalled := body.resolved_config.isSome
  let unlinkSucceeded := unlinkCalled && !env.unlinkRaises
  { ok := body.result.1
    msg := body.result.2
    tmpConfigCreated := body.tmpFileCreated
    resolvedConfigSet := body.resolved_config.isSome
    unlinkCalled := unlinkCalled
    tmpConfigExistsAfter := body.tmpFileCreated && !unlinkSucceeded
    resolvedText := body.resolved_config }

/-! ## Rescan notifier (`navidrome_rescan`, lines 85-102) -/

/-- `navidrome_rescan`: the oracle is `none` when the GET succeeds with a
non-error status, `some e` when any exception with message `e` occurs. -/
def navidrome_rescan (exn : Option String) : Bool × String :=
  match exn with
  | none => (true, "Navidrome rescan triggered.")
  | some e => (false, "Navidrome rescan failed: " ++ e)

/-! ## Upload dispatcher (`upload`, lines 173-250) -/

structure FilePart where
  filename : Option String
  content : List Nat

structure UploadRequest where
  workflow : String
  file : Option FilePart
  text : Option String

/-- Oracle for one `upload` request: `isZip` is `zipfile.is_zipfile` on
the buffered payload bytes; `inboxError` is `some e` when the inbox write
raises an exception with message `e`. -/
structure UploadEnv where
  isZip : List Nat → Bool
  importEnv : ImportEnv
  rescanExn : Option String
  inboxError : Option String
  timestamp : String

inductive WriteTarget where
  | tmp
  | inbox
  | snippets
  | music
deriving DecidableEq

structure WriteEvent where
  target : WriteTarget
  path : String
deriving DecidableEq

structure UploadResult where
  ok : Bool
  message : String
  status : Nat
  writes : List WriteEvent
  importCalls : Nat
  rescanCalls : Nat
  ensureDirsCalled : Bool

/-- Line 197: `filename = file.filename or "upload"` (Python treats both
a missing filename and the empty string as falsy). -/
def pyFilename (f : FilePart) : String :=
  match f.filename with
  | none => "upload"
  | some s => if s = "" then "upload" else s

/-- `pathlib`'s `/` on POSIX: an absolute right operand replaces the
base, otherwise the parts are joined with a separator. -/
def pyPathJoin (base child : String) : String :=
  if child.data.head? = some '/' then child else base ++ "/" ++ child

/-- The `POST /upload` handler body (after `require_auth`). -/
def upload (cfg : Config) (req : UploadRequest) (env : UploadEnv) : UploadResult :=
  if req.workflow = "text" then
    match req.text with
    | none =>
      { ok := false, message := "No text provided.", status := 400
        writes := [], importCalls := 0, rescanCalls := 0, ensureDirsCalled := true }
    | some t =>
      if t = "" then
        { ok := false, message := "No text provided.", status := 400
          writes := [], importCalls := 0, rescanCalls := 0, ensureDirsCalled := true }
      else
        { ok := true, message := "Text snippet appended successfully.", status := 200
          writes := [⟨.snippets, cfg.snippets_file⟩]
          importCalls := 0, rescanCalls := 0, ensureDirsCalled := true }
  else
    match req.file with
    | none =>
      { ok := false, message := "No file provided.", status := 400
        writes := [], importCalls := 0, rescanCalls := 0, ensureDirsCalled := true }
    | some f =>
      let filename := pyFilename f
      if req.workflow = "music" then
        -- buffer the payload into the scoped temporary directory
        let bufWrite : WriteEvent := ⟨.tmp, "tmpdir/" ++ filename⟩
        if !(env.isZip f.content) then
          { ok := false, message := "File is not a zip archive.", status := 400
            writes := [bufWrite], importCalls := 0, rescanCalls := 0, ensureDirsCalled := true }
        else
          let extractWrite : WriteEvent := ⟨.tmp, "tmpdir/extracted"⟩
          let imp := runImport cfg env.importEnv
          if !imp.ok then
            { ok := false, message := imp.msg, status := 200
              writes := [bufWrite, extractWrite]
              importCalls := 1, rescanCalls := 0, ensureDirsCalled := true }
          else
            let scan := navidrome_rescan env.rescanExn
            let final1 := "Music imported successfully."
            let final2 :=
              if scan.1 then "Music imported successfully. Navidrome rescan triggered."
              else final1
            let final3 := if scan.2 = "" then final2 else final2 ++ " " ++ scan.2
            { ok := true, message := final3, status := 200
              writes := [bufWrite, extractWrite]
              importCalls := 1, rescanCalls := 1, ensureDirsCalled := true }
      else if req.workflow = "inbox" then
        let dest := pyPathJoin cfg.inbox_dir filename
        match env.inboxError with
        | some e =>
          { ok := false, message := "Error saving to inbox: " ++ e, status := 500
            writes := [], importCalls := 0, rescanCalls := 0, ensureDirsCalled := true }
        | none =>
          { ok := true, message := "File uploaded successfully.", status := 200
            writes := [⟨.inbox, dest⟩]
            importCalls := 0, rescanCalls := 0, ensureDirsCalled := true }
      else
        { ok := false, message := "Unknown workflow: " ++ req.workflow, status := 400
          writes := [], importCalls := 0, rescanCalls := 0, ensureDirsCalled := true }

/-! ## Path normalization (for reasoning about inbox destinations) -/

/-- Split a character list on the separator character. -/
def splitSlashAux (cur : List Char) : List Char → List (List Char)
  | [] => [cur.reverse]
  | c :: cs => if c = '/' then cur.reverse :: splitSlashAux [] cs else splitSlashAux (c :: cur) cs

def splitSlash (l : List Char) : List (List Char) := splitSlashAux [] l

/-- Lexically resolve `.`, `..` and empty components of an absolute path. -/
def normAcc (acc : List (List Char)) : List (List Char) → List (List Char)
  | [] => acc.reverse
  | c :: cs =>
    if c = [] ∨ c = ['.'] then normAcc acc cs
    else if c = ['.', '.'] then normAcc acc.tail cs
    else normAcc (c :: acc) cs

def normalizePath (p : String) : List String :=
  (normAcc [] (splitSlash p.data)).map (fun l => String.mk l)

/-- Whether the (lexically resolved) path `p` lies in directory `dir`. -/
def isUnderB (dir p : String) : Bool :=
  isPreB (normalizePath dir) (normalizePath p)

/-! ## Concrete oracles for witnesses and counterexamples -/

def importEnvOkay : ImportEnv :=
  { configText := some "directory: ${MUSIC_DIR}\nlibrary: ${BEETS_DIR}/library.db"
    tmpWriteError := none
    outcome := .completed 0 "imported!" ""
    unlinkRaises := false }

def importEnvFailing : ImportEnv :=
  { configText := some "directory: ${MUSIC_DIR}"
    tmpWriteError := none
    outcome := .completed 2 "out text" "err text"
    unlinkRaises := false }

def importEnvWriteFails : ImportEnv :=
  { configText := some "directory: ${MUSIC_DIR}\nlibrary: ${BEETS_DIR}/library.db"
    tmpWriteError := some "No space left on device"
    outcome := .completed 0 "" ""
    unlinkRaises := false }

def importEnvUnlinkFails : ImportEnv :=
  { configText := some "directory: ${MUSIC_DIR}\nlibrary: ${BEETS_DIR}/library.db"
    tmpWriteError := none
    outcome := .completed 0 "imported!" ""
    unlinkRaises := true }

def envImportOk : UploadEnv :=
  { isZip := fun _ => true
    importEnv := importEnvOkay
    rescanExn := none
    inboxError := none
    timestamp := "2026-01-01 00:00:00 EST" }

def envImportFail : UploadEnv :=
  { isZip := fun _ => true
    importEnv := importEnvFailing
    rescanExn := none
    inboxError := none
    timestamp := "2026-01-01 00:00:00 EST" }

def envNotZip : UploadEnv :=
  { isZip := fun _ => false
    importEnv := importEnvOkay
    rescanExn := none
    inboxError := none
    timestamp := "2026-01-01 00:00:00 EST" }

def envRescanDown : UploadEnv :=
  { isZip := fun _ => true
    importEnv := importEnvOkay
    rescanExn := some "connection refused"
    inboxError := none
    timestamp := "2026-01-01 00:00:00 EST" }

/-! ## Lemmas: prefix / suffix / substring basics -/

theorem isPreB_iff [DecidableEq α] (p l : List α) : isPreB p l = true ↔ isPre p l := by
  induction p generalizing l with
  | nil =>
    constructor
    · intro _
      exact ⟨l, rfl⟩
    · intro _
      rfl
  | cons a as ih =>
    cases l with
    | nil =>
      simp only [isPreB, isPre]
      constructor
      · intro h
        exact absurd h (by simp)
      · rintro ⟨t, ht⟩
        exact absurd ht (by simp)
    | cons b bs =>
      simp only [isPreB, Bool.and_eq_true, decide_eq_true_eq]
      constructor
      · rintro ⟨hab, h⟩
        obtain ⟨t, ht⟩ := (ih bs).mp h
        exact ⟨t, by simp [hab, ht]⟩
      · rintro ⟨t, ht⟩
        simp only [List.cons_append, List.cons.injEq] at ht
        exact ⟨ht.1.symm, (ih bs).mpr ⟨t, ht.2⟩⟩

theorem isPreB_eq_false_iff [DecidableEq α] (p l : List α) :
    isPreB p l = false ↔ ¬ isPre p l := by
  rw [← isPreB_iff p l]
  cases h : isPreB p l <;> simp

theorem isPre_of_occursIn_cons {m : List α} {c : α} {l : List α}
    (h : occursIn m (c :: l)) : isPre m (c :: l) ∨ occursIn m l := by
  obtain ⟨u, v, huv⟩ := h
  cases u with
  | nil =>
    exact Or.inl ⟨v, by simpa using huv⟩
  | cons d u' =>
    simp only [List.cons_append, List.cons.injEq] at huv
    exact Or.inr ⟨u', v, huv.2⟩

theorem occursIn_cons_of_occursIn {m : List α} (c : α) {l : List α}
    (h : occursIn m l) : occursIn m (c :: l) := by
  obtain ⟨u, v, huv⟩ := h
  exact ⟨c :: u, v, by simp [huv]⟩

theorem occursIn_of_isPre {m l : List α} (h : isPre m l) : occursIn m l := by
  obtain ⟨t, ht⟩ := h
  exact ⟨[], t, by simp [ht]⟩

theorem occursIn_append_right {m : List α} (a : List α) {b : List α}
    (h : occursIn m b) : occursIn m (a ++ b) := by
  obtain ⟨u, v, huv⟩ := h
  exact ⟨a ++ u, v, by simp [huv]⟩

theorem isSubB_iff [DecidableEq α] (m l : List α) : isSubB m l = true ↔ occursIn m l := by
  induction l with
  | nil =>
    simp only [isSubB, List.isEmpty_iff, occursIn]
    constructor
    · intro h
      exact ⟨[], [], by simp [h]⟩
    · rintro ⟨u, v, huv⟩
      rcases List.append_eq_nil.mp huv.symm with ⟨h1, _⟩
      exact (List.append_eq_nil.mp h1).2
  | cons c cs ih =>
    simp only [isSubB, Bool.or_eq_true]
    constructor
    · rintro (h | h)
      · exact occursIn_of_isPre ((isPreB_iff _ _).mp h)
      · exact occursIn_cons_of_occursIn c (ih.mp h)
    · intro h
      rcases isPre_of_occursIn_cons h with h | h
      · exact Or.inl ((isPreB_iff _ _).mpr h)
      · exact Or.inr (ih.mpr h)

theorem isSubB_eq_false_iff [DecidableEq α] (m l : List α) :
    isSubB m l = false ↔ ¬ occursIn m l := by
  rw [← isSubB_iff m l]
  cases h : isSubB m l <;> simp

theorem mem_of_isPre {p l : List α} (h : isPre p l) {a : α} (ha : a ∈ p) : a ∈ l := by
  obtain ⟨t, ht⟩ := h
  subst ht
  exact List.mem_append_left t ha

theorem mem_of_isSuf {s l : List α} (h : isSuf s l) {a : α} (ha : a ∈ s) : a ∈ l := by
  obtain ⟨t, ht⟩ := h
  subst ht
  exact List.mem_append_right t ha

theorem mem_of_occursIn {m l : List α} (h : occursIn m l) {a : α} (ha : a ∈ m) : a ∈ l := by
  obtain ⟨u, v, huv⟩ := h
  subst huv
  exact List.mem_append_left v (List.mem_append_right u ha)

theorem occursIn_nil {m : List α} (h : occursIn m ([] : List α)) : m = [] := by
  obtain ⟨u, v, huv⟩ := h
  rcases List.append_eq_nil.mp huv.symm with ⟨h1, _⟩
  exact (List.append_eq_nil.mp h1).2

theorem isSuf_tail {x : α} {xs l : List α} (h : isSuf (x :: xs) l) : isSuf xs l := by
  obtain ⟨t, ht⟩ := h
  exact ⟨t ++ [x], by simp [ht]⟩

theorem isSuf_cases {s : List α} {c : α} {rest : List α} (h : isSuf s (c :: rest)) :
    s = c :: rest ∨ isSuf s rest := by
  obtain ⟨t, ht⟩ := h
  cases t with
  | nil => exact Or.inl (by simpa using ht.symm)
  | cons d t' =>
    simp only [List.cons_append, List.cons.injEq] at ht
    exact Or.inr ⟨t', ht.2⟩

theorem isPre_total {a b l : List α} (ha : isPre a l) (hb : isPre b l) :
    isPre a b ∨ isPre b a := by
  obtain ⟨t, ht⟩ := ha
  obtain ⟨u, hu⟩ := hb
  subst ht
  rcases List.append_eq_append_iff.mp hu with ⟨w, hw1, _⟩ | ⟨w, hw1, _⟩
  · exact Or.inl ⟨w, hw1⟩
  · exact Or.inr ⟨w, hw1⟩

theorem chkSufPre_correct [DecidableEq α] {pat t : List α} (h : chkSufPre pat t = true) :
    ∀ s, isSuf s pat → s ≠ [] → ¬ isPre s t := by
  induction pat with
  | nil =>
    intro s hs hne
    obtain ⟨u, hu⟩ := hs
    rcases List.append_eq_nil.mp hu.symm with ⟨_, h2⟩
    exact absurd h2 hne
  | cons c rest ih =>
    simp only [chkSufPre, Bool.and_eq_true, Bool.not_eq_true'] at h
    intro s hs hne hp
    rcases isSuf_cases hs with rfl | hs'
    · exact absurd ((isPreB_eq_false_iff _ _).mp h.1) (by exact fun hc => hc hp)
    · exact ih h.2 s hs' hne hp

theorem isSuf_cons_lift {s : List α} (c : α) {l : List α} (h : isSuf s l) :
    isSuf s (c :: l) := by
  obtain ⟨t, ht⟩ := h
  exact ⟨c :: t, by simp [ht]⟩

theorem isSuf_self (l : List α) : isSuf l l := ⟨[], (List.nil_append l).symm⟩

theorem occursIn_self (l : List α) : occursIn l l := ⟨[], [], by simp⟩

theorem isPre_append_cases {p x y : List α} (h : isPre p (x ++ y)) :
    isPre p x ∨ ∃ p₂, p = x ++ p₂ ∧ isPre p₂ y := by
  rcases isPre_total h ⟨y, rfl⟩ with hp | hp
  · exact Or.inl hp
  · obtain ⟨p₂, hp₂⟩ := hp
    obtain ⟨r, hr⟩ := h
    subst hp₂
    rw [List.append_assoc] at hr
    exact Or.inr ⟨p₂, rfl, ⟨r, List.append_cancel_left hr⟩⟩

theorem occursIn_decomp {t : List α} : ∀ {a b : List α}, occursIn t (a ++ b) →
    occursIn t a ∨ occursIn t b ∨
      ∃ t₁ t₂, t = t₁ ++ t₂ ∧ t₁ ≠ [] ∧ t₂ ≠ [] ∧ isSuf t₁ a ∧ isPre t₂ b := by
  intro a
  induction a with
  | nil =>
    intro b h
    exact Or.inr (Or.inl (by simpa using h))
  | cons c a' ih =>
    intro b h
    rcases isPre_of_occursIn_cons (by simpa using h) with hp | ho
    · rcases hp with ⟨r, hr⟩
      cases t with
      | nil => exact Or.inl ⟨[], c :: a', by simp⟩
      | cons t0 t' =>
        simp only [List.cons_append, List.cons.injEq] at hr
        rcases isPre_append_cases (⟨r, hr.2⟩ : isPre t' (a' ++ b)) with h1 | ⟨p₂, hp₂, hpb⟩
        · refine Or.inl (occursIn_of_isPre ?_)
          obtain ⟨s, hs⟩ := h1
          exact ⟨s, by simp [hr.1, hs]⟩
        · cases hq : p₂ with
          | nil =>
            refine Or.inl ?_
            subst hq
            simp only [List.append_nil] at hp₂
            rw [hr.1, hp₂]
            exact occursIn_self _
          | cons q0 qs =>
            refine Or.inr (Or.inr ⟨c :: a', p₂, ?_, by simp, by simp [hq], isSuf_self _, hpb⟩)
            simp [hr.1, hp₂]
    · rcases ih ho with h1 | h1 | ⟨t₁, t₂, h1, h2, h3, h4, h5⟩
      · exact Or.inl (occursIn_cons_of_occursIn c h1)
      · exact Or.inr (Or.inl h1)
      · exact Or.inr (Or.inr ⟨t₁, t₂, h1, h2, h3, isSuf_cons_lift c h4, h5⟩)

/-! ## Lemmas about `repl` (single-pass literal substitution) -/

theorem repl_match [DecidableEq α] {pat : List α} (rep : List α) {c : α} {cs : List α}
    (h : pat ≠ [] ∧ isPreB pat (c :: cs) = true) :
    repl pat rep (c :: cs) = rep ++ repl pat rep (List.drop (pat.length - 1) cs) := by
  rw [repl.eq_2, if_pos h]

theorem repl_nomatch [DecidableEq α] {pat : List α} (rep : List α) {c : α} {cs : List α}
    (h : ¬ (pat ≠ [] ∧ isPreB pat (c :: cs) = true)) :
    repl pat rep (c :: cs) = c :: repl pat rep cs := by
  rw [repl.eq_2, if_neg h]

/-- A head match decomposes the list as the pattern followed by the rest. -/
theorem matchHead [DecidableEq α] {pat : List α} {c : α} {cs : List α}
    (hpat : pat ≠ []) (hp : isPreB pat (c :: cs) = true) :
    c :: cs = pat ++ List.drop (pat.length - 1) cs := by
  obtain ⟨l', hl'⟩ := (isPreB_iff _ _).mp hp
  cases pat with
  | nil => exact absurd rfl hpat
  | cons p0 ps =>
    simp only [List.cons_append, List.cons.injEq] at hl'
    simp only [List.length_cons, Nat.add_sub_cancel]
    rw [hl'.2, List.drop_left]
    simp [hl'.1]

/-- A nonempty suffix of `t` that is a prefix of the substitution output is
already a prefix of the input (the replacement text cannot start it, since
its letters avoid `t`). -/
theorem sufLift [DecidableEq α] {pat rep t : List α} (hrep : rep ≠ [])
    (hdisj : ∀ c ∈ rep, c ∉ t) :
    ∀ l s, isSuf s t → s ≠ [] → isPre s (repl pat rep l) → isPre s l := by
  intro l
  induction l using repl.induct pat rep with
  | case1 =>
    intro s _ hne hpre
    rw [repl.eq_1] at hpre
    obtain ⟨r, hr⟩ := hpre
    cases s with
    | nil => exact absurd rfl hne
    | cons a as => exact absurd hr (by simp)
  | case2 c cs h ih =>
    intro s hsuf hne hpre
    rw [repl_match rep h] at hpre
    cases s with
    | nil => exact absurd rfl hne
    | cons s0 s' =>
      cases hrw : rep with
      | nil => exact absurd hrw hrep
      | cons r0 rs =>
        obtain ⟨r, hr⟩ := hpre
        rw [hrw] at hr
        simp only [List.cons_append, List.cons.injEq] at hr
        have hs0 : s0 ∈ t := mem_of_isSuf hsuf (List.mem_cons_self _ _)
        have hr0 : r0 ∈ rep := by rw [hrw]; exact List.mem_cons_self _ _
        rw [hr.1] at hr0
        exact absurd hs0 (hdisj s0 hr0)
  | case3 c cs h ih =>
    intro s hsuf hne hpre
    rw [repl_nomatch rep h] at hpre
    cases s with
    | nil => exact absurd rfl hne
    | cons s0 s' =>
      obtain ⟨r, hr⟩ := hpre
      simp only [List.cons_append, List.cons.injEq] at hr
      by_cases hs' : s' = []
      · subst hs'
        exact ⟨cs, by simp [hr.1]⟩
      · obtain ⟨r', hr'⟩ := ih s' (isSuf_tail hsuf) hs' ⟨r, hr.2⟩
        exact ⟨r', by simp [hr.1, hr']⟩

/-- After replacing `pat` (whose letters the replacement avoids), `pat` no
longer occurs. -/
theorem noNewPat [DecidableEq α] {pat rep : List α} (hpat : pat ≠ []) (hrep : rep ≠ [])
    (hdisj : ∀ c ∈ rep, c ∉ pat) : ∀ l, ¬ occursIn pat (repl pat rep l) := by
  intro l
  induction l using repl.induct pat rep with
  | case1 =>
    rw [repl.eq_1]
    intro h
    exact hpat (occursIn_nil h)
  | case2 c cs h ih =>
    rw [repl_match rep h]
    intro hocc
    rcases occursIn_decomp hocc with h1 | h1 | ⟨t₁, t₂, he, hn1, _, hsf, _⟩
    · cases hpt : pat with
      | nil => exact hpat hpt
      | cons p0 ps =>
        have hp0 : p0 ∈ pat := by rw [hpt]; exact List.mem_cons_self _ _
        exact hdisj p0 (mem_of_occursIn h1 hp0) hp0
    · exact ih h1
    · cases ht1 : t₁ with
      | nil => exact hn1 ht1
      | cons a as =>
        have h1 : a ∈ rep := mem_of_isSuf hsf (by rw [ht1]; exact List.mem_cons_self _ _)
        have h2 : a ∈ pat := by
          rw [he, ht1]
          exact List.mem_append_left _ (List.mem_cons_self _ _)
        exact hdisj a h1 h2
  | case3 c cs h ih =>
    rw [repl_nomatch rep h]
    intro hocc
    rcases isPre_of_occursIn_cons hocc with hp | ho
    · cases hpt : pat with
      | nil => exact hpat hpt
      | cons p0 ps =>
        obtain ⟨r, hr⟩ := hp
        rw [hpt] at hr
        simp only [List.cons_append, List.cons.injEq] at hr
        by_cases hps : ps = []
        · refine h ⟨hpat, ?_⟩
          rw [hpt, hps]
          simp [isPreB, hr.1]
        · have hsuf : isSuf ps pat := by rw [hpt]; exact ⟨[p0], by simp⟩
          have hdisj' : ∀ x ∈ rep, x ∉ pat := hdisj
          obtain ⟨r', hr'⟩ := sufLift hrep hdisj' cs ps hsuf hps ⟨r, hr.2⟩
          refine h ⟨hpat, (isPreB_iff _ _).mpr ⟨r', ?_⟩⟩
          rw [hpt]
          simp [hr.1, hr']
    · exact ih ho

/-- Replacing `pat` cannot create an occurrence of a word `t` that avoids
the replacement's letters and did not occur before. -/
theorem freePreserved [DecidableEq α] {pat rep t : List α} (ht : t ≠ []) (hrep : rep ≠ [])
    (hdisj : ∀ c ∈ rep, c ∉ t) :
    ∀ l, ¬ occursIn t l → ¬ occursIn t (repl pat rep l) := by
  intro l
  induction l using repl.induct pat rep with
  | case1 =>
    intro hfree
    rw [repl.eq_1]
    exact hfree
  | case2 c cs h ih =>
    intro hfree hocc
    have hD : ¬ occursIn t (List.drop (pat.length - 1) cs) := by
      intro hx
      exact hfree (by rw [matchHead h.1 h.2]; exact occursIn_append_right pat hx)
    rw [repl_match rep h] at hocc
    rcases occursIn_decomp hocc with h1 | h1 | ⟨t₁, t₂, he, hn1, _, hsf, _⟩
    · cases htt : t with
      | nil => exact ht htt
      | cons t0 t' =>
        have h2 : t0 ∈ t := by rw [htt]; exact List.mem_cons_self _ _
        exact hdisj t0 (mem_of_occursIn h1 (by rw [htt]; exact List.mem_cons_self _ _)) h2
    · exact ih hD h1
    · cases ht1 : t₁ with
      | nil => exact hn1 ht1
      | cons a as =>
        have h1 : a ∈ rep := mem_of_isSuf hsf (by rw [ht1]; exact List.mem_cons_self _ _)
        have h2 : a ∈ t := by
          rw [he, ht1]
          exact List.mem_append_left _ (List.mem_cons_self _ _)
        exact hdisj a h1 h2
  | case3 c cs h ih =>
    intro hfree hocc
    rw [repl_nomatch rep h] at hocc
    rcases isPre_of_occursIn_cons hocc with hp | ho
    · cases htt : t with
      | nil => exact ht htt
      | cons t0 t' =>
        obtain ⟨r, hr⟩ := hp
        rw [htt] at hr
        simp only [List.cons_append, List.cons.injEq] at hr
        by_cases ht' : t' = []
        · refine hfree ⟨[], cs, ?_⟩
          rw [htt, ht']
          simp [hr.1]
        · have hsuf : isSuf t' t := by rw [htt]; exact ⟨[t0], by simp⟩
          obtain ⟨r', hr'⟩ := sufLift hrep hdisj cs t' hsuf ht' ⟨r, hr.2⟩
          refine hfree ⟨[], r', ?_⟩
          rw [htt]
          simp [hr.1, hr']
    · exact ih (fun hx => hfree (occursIn_cons_of_occursIn c hx)) ho

/-- If the pattern occurs, the replacement occurs in the output. -/
theorem repOccurs [DecidableEq α] {pat rep : List α} (hpat : pat ≠ []) :
    ∀ l, occursIn pat l → occursIn rep (repl pat rep l) := by
  intro l
  induction l using repl.induct pat rep with
  | case1 =>
    intro h
    exact absurd (occursIn_nil h) hpat
  | case2 c cs h ih =>
    intro _
    rw [repl_match rep h]
    exact ⟨[], repl pat rep (List.drop (pat.length - 1) cs), by simp⟩
  | case3 c cs h ih =>
    intro hocc
    rw [repl_nomatch rep h]
    rcases isPre_of_occursIn_cons hocc with hp | ho
    · exact absurd ⟨hpat, (isPreB_iff _ _).mpr hp⟩ h
    · exact occursIn_cons_of_occursIn c (ih ho)

/-- A prefix that is a suffix of `t` survives substitution when no
nonempty suffix of `t` is a prefix of `pat` and `pat` does not occur in
`t`. -/
theorem preLift [DecidableEq α] {pat rep t : List α}
    (hd1 : ∀ s, isSuf s t → s ≠ [] → ¬ isPre s pat)
    (hd2 : ¬ occursIn pat t) :
    ∀ l s, isSuf s t → isPre s l → isPre s (repl pat rep l) := by
  intro l
  induction l using repl.induct pat rep with
  | case1 =>
    intro s _ hpre
    rw [repl.eq_1]
    obtain ⟨r, hr⟩ := hpre
    cases s with
    | nil => exact ⟨[], rfl⟩
    | cons a as => exact absurd hr (by simp)
  | case2 c cs h ih =>
    intro s hsuf hpre
    by_cases hs : s = []
    · subst hs
      exact ⟨repl pat rep (c :: cs), rfl⟩
    · have hppre : isPre pat (c :: cs) := (isPreB_iff _ _).mp h.2
      rcases isPre_total hpre hppre with h1 | h1
      · exact absurd h1 (hd1 s hsuf hs)
      · obtain ⟨x, hx⟩ := h1
        obtain ⟨w, hw⟩ := hsuf
        refine absurd ⟨w, x, ?_⟩ hd2
        rw [hw, hx, List.append_assoc]
  | case3 c cs h ih =>
    intro s hsuf hpre
    rw [repl_nomatch rep h]
    cases s with
    | nil => exact ⟨_, rfl⟩
    | cons s0 s' =>
      obtain ⟨r, hr⟩ := hpre
      simp only [List.cons_append, List.cons.injEq] at hr
      obtain ⟨r', hr'⟩ := ih s' (isSuf_tail hsuf) ⟨r, hr.2⟩
      exact ⟨r', by simp [hr.1, hr']⟩

/-- An occurrence of `t` survives substitution of `pat`, provided `t` does
not occur in `pat`, no nonempty suffix of `pat` starts `t`, no nonempty
suffix of `t` starts `pat`, and `pat` does not occur in `t`. -/
theorem occPreserved [DecidableEq α] {pat rep t : List α}
    (hwithin : ¬ occursIn t pat)
    (hspan : ∀ s, isSuf s pat → s ≠ [] → ¬ isPre s t)
    (hd1 : ∀ s, isSuf s t → s ≠ [] → ¬ isPre s pat)
    (hd2 : ¬ occursIn pat t) :
    ∀ l, occursIn t l → occursIn t (repl pat rep l) := by
  intro l
  induction l using repl.induct pat rep with
  | case1 =>
    intro h
    rw [repl.eq_1]
    exact h
  | case2 c cs h ih =>
    intro hocc
    rw [repl_match rep h]
    rw [matchHead h.1 h.2] at hocc
    rcases occursIn_decomp hocc with h1 | h1 | ⟨t₁, t₂, he, hn1, _, hsf, _⟩
    · exact absurd h1 hwithin
    · exact occursIn_append_right rep (ih h1)
    · exact absurd ⟨t₂, he⟩ (hspan t₁ hsf hn1)
  | case3 c cs h ih =>
    intro hocc
    rcases isPre_of_occursIn_cons hocc with hp | ho
    · exact occursIn_of_isPre (preLift hd1 hd2 (c :: cs) t (isSuf_self t) hp)
    · rw [repl_nomatch rep h]
      exact occursIn_cons_of_occursIn c (ih ho)

/-- When every letter of `dir` avoids `pat`, all four side conditions of
`occPreserved` hold for preserving occurrences of `dir` across a
substitution of `pat`. -/
theorem charHyps [DecidableEq α] {pat dir : List α} (hpat : pat ≠ []) (hdir : dir ≠ [])
    (hdisj : ∀ c ∈ dir, c ∉ pat) :
    ¬ occursIn dir pat ∧
    (∀ s, isSuf s pat → s ≠ [] → ¬ isPre s dir) ∧
    (∀ s, isSuf s dir → s ≠ [] → ¬ isPre s pat) ∧
    ¬ occursIn pat dir := by
  refine ⟨?_, ?_, ?_, ?_⟩
  · intro hocc
    cases hd : dir with
    | nil => exact hdir hd
    | cons d0 ds =>
      have h1 : d0 ∈ dir := by rw [hd]; exact List.mem_cons_self _ _
      exact hdisj d0 h1 (mem_of_occursIn hocc h1)
  · intro s hsuf hne hpre
    cases hs : s with
    | nil => exact hne hs
    | cons s0 s' =>
      have h0 : s0 ∈ s := by rw [hs]; exact List.mem_cons_self _ _
      exact hdisj s0 (mem_of_isPre hpre h0) (mem_of_isSuf hsuf h0)
  · intro s hsuf hne hpre
    cases hs : s with
    | nil => exact hne hs
    | cons s0 s' =>
      have h0 : s0 ∈ s := by rw [hs]; exact List.mem_cons_self _ _
      exact hdisj s0 (mem_of_isSuf hsuf h0) (mem_of_isPre hpre h0)
  · intro hocc
    cases hp : pat with
    | nil => exact hpat hp
    | cons p0 ps =>
      have h0 : p0 ∈ pat := by rw [hp]; exact List.mem_cons_self _ _
      exact hdisj p0 (mem_of_occursIn hocc h0) h0

/-! ## Claim C7: the config resolver eliminates both placeholders -/

/-- C7. For every template text containing both placeholder tokens
`${BEETS_DIR}` and `${MUSIC_DIR}`, the resolved config text (line 127 of
`src/main.py`) contains zero occurrences of either placeholder and
contains the configured beets-directory and music-directory values as
literal substrings.  The hypotheses state that the configured directory
paths are nonempty and use none of the placeholder tokens' characters
(uppercase letters, `$`, braces, `_`), as the default values
`/config/beets` and `/data/music` do. -/
theorem resolveConfig_eliminates_placeholders (cfg : Config) (raw : String)
    (hbocc : isSubB beetsPlaceholder.data raw.data = true)
    (hmocc : isSubB musicPlaceholder.data raw.data = true)
    (hbne : cfg.beets_dir.data ≠ [])
    (hmne : cfg.music_dir.data ≠ [])
    (hbchars : ∀ c ∈ cfg.beets_dir.data, c ∉ beetsPlaceholder.data ∧ c ∉ musicPlaceholder.data)
    (hmchars : ∀ c ∈ cfg.music_dir.data, c ∉ beetsPlaceholder.data ∧ c ∉ musicPlaceholder.data) :
    isSubB beetsPlaceholder.data (resolveConfig cfg raw).data = false ∧
    isSubB musicPlaceholder.data (resolveConfig cfg raw).data = false ∧
    isSubB cfg.beets_dir.data (resolveConfig cfg raw).data = true ∧
    isSubB cfg.music_dir.data (resolveConfig cfg raw).data = true := by
  have hpatb : beetsPlaceholder.data ≠ [] := by decide
  have hpatm : musicPlaceholder.data ≠ [] := by decide
  have hdataeq : (resolveConfig cfg raw).data
      = repl musicPlaceholder.data cfg.music_dir.data
          (repl beetsPlaceholder.data cfg.beets_dir.data raw.data) := rfl
  -- the intermediate text, after the first replacement
  have h1 : ¬ occursIn beetsPlaceholder.data
      (repl beetsPlaceholder.data cfg.beets_dir.data raw.data) :=
    noNewPat hpatb hbne (fun c hc => (hbchars c hc).1) raw.data
  have h2 : ¬ occursIn musicPlaceholder.data (resolveConfig cfg raw).data := by
    rw [hdataeq]
    exact noNewPat hpatm hmne (fun c hc => (hmchars c hc).2) _
  have h3 : ¬ occursIn beetsPlaceholder.data (resolveConfig cfg raw).data := by
    rw [hdataeq]
    exact freePreserved hpatb hmne (fun c hc => (hmchars c hc).1) _ h1
  have h4 : occursIn cfg.beets_dir.data
      (repl beetsPlaceholder.data cfg.beets_dir.data raw.data) :=
    repOccurs hpatb raw.data ((isSubB_iff _ _).mp hbocc)
  have hch := charHyps hpatm hbne (fun c hc => (hbchars c hc).2)
  have h5 : occursIn cfg.beets_dir.data (resolveConfig cfg raw).data := by
    rw [hdataeq]
    exact occPreserved hch.1 hch.2.1 hch.2.2.1 hch.2.2.2 _ h4
  have hw : ¬ occursIn musicPlaceholder.data beetsPlaceholder.data :=
    (isSubB_eq_false_iff _ _).mp (by decide)
  have hs : ∀ s, isSuf s beetsPlaceholder.data → s ≠ [] → ¬ isPre s musicPlaceholder.data :=
    chkSufPre_correct (by decide)
  have hd1 : ∀ s, isSuf s musicPlaceholder.data → s ≠ [] → ¬ isPre s beetsPlaceholder.data :=
    chkSufPre_correct (by decide)
  have hd2 : ¬ occursIn beetsPlaceholder.data musicPlaceholder.data :=
    (isSubB_eq_false_iff _ _).mp (by decide)
  have h6 : occursIn musicPlaceholder.data
      (repl beetsPlaceholder.data cfg.beets_dir.data raw.data) :=
    occPreserved hw hs hd1 hd2 raw.data ((isSubB_iff _ _).mp hmocc)
  have h7 : occursIn cfg.music_dir.data (resolveConfig cfg raw).data := by
    rw [hdataeq]
    exact repOccurs hpatm _ h6
  exact ⟨(isSubB_eq_false_iff _ _).mpr h3, (isSubB_eq_false_iff _ _).mpr h2,
    (isSubB_iff _ _).mpr h5, (isSubB_iff _ _).mpr h7⟩

/-- Witness for C7 at a concrete template and the default configuration. -/
theorem resolveConfig_eliminates_placeholders_witness :
    isSubB beetsPlaceholder.data "directory: ${MUSIC_DIR}\nlibrary: ${BEETS_DIR}/library.db".data = true ∧
    isSubB beetsPlaceholder.data
      (resolveConfig defaultConfig "directory: ${MUSIC_DIR}\nlibrary: ${BEETS_DIR}/library.db").data = false ∧
    isSubB musicPlaceholder.data
      (resolveConfig defaultConfig "directory: ${MUSIC_DIR}\nlibrary: ${BEETS_DIR}/library.db").data = false ∧
    isSubB defaultConfig.beets_dir.data
      (resolveConfig defaultConfig "directory: ${MUSIC_DIR}\nlibrary: ${BEETS_DIR}/library.db").data = true ∧
    isSubB defaultConfig.music_dir.data
      (resolveConfig defaultConfig "directory: ${MUSIC_DIR}\nlibrary: ${BEETS_DIR}/library.db").data = true := by
  have h := resolveConfig_eliminates_placeholders defaultConfig
    "directory: ${MUSIC_DIR}\nlibrary: ${BEETS_DIR}/library.db"
    (by decide) (by decide) (by decide) (by decide) (by decide) (by decide)
  exact ⟨by decide, h.1, h.2.1, h.2.2.1, h.2.2.2⟩

/-! ## Claim C9: the credential checker -/

/-- C9. A credential pair in which username and password are not both
exactly equal to the configured values fails with HTTP 401 and a
`WWW-Authenticate: Basic` challenge; the exactly matching pair proceeds
(lines 65-74 of `src/main.py`). -/
theorem require_auth_spec (cfg : Config) (c : Credentials) :
    (¬ (c.username = cfg.dropzone_user ∧ c.password = cfg.dropzone_password) →
      require_auth cfg c = AuthOutcome.unauthorized 401 "Unauthorized" "Basic") ∧
    (c.username = cfg.dropzone_user → c.password = cfg.dropzone_password →
      require_auth cfg c = AuthOutcome.proceed c.username) := by
  constructor
  · intro h
    simp [require_auth, h]
  · intro h1 h2
    simp [require_auth, h1, h2]

/-- Witness for C9: a wrong password is rejected with the challenge, the
configured pair proceeds. -/
theorem require_auth_spec_witness :
    require_auth defaultConfig ⟨"admin", "wrong"⟩
      = AuthOutcome.unauthorized 401 "Unauthorized" "Basic" ∧
    require_auth defaultConfig ⟨"admin", "changeme"⟩ = AuthOutcome.proceed "admin" :=
  ⟨(require_auth_spec defaultConfig ⟨"admin", "wrong"⟩).1 (by decide),
   (require_auth_spec defaultConfig ⟨"admin", "changeme"⟩).2 (by decide) (by decide)⟩

/-! ## Claim C6: cleanup of the resolved temp config -/

/-- C6 counterexample: two exit paths on which the created temp config
file is NOT deleted before `import_music_with_beets` returns.  First,
when `tmp.write` raises after `NamedTemporaryFile(delete=False)` created
the file (lines 128-130), `resolved_config` is still `None`, the
`finally` clause skips the unlink, and the file persists.  Second, when
`os.unlink` itself raises an `OSError`, the `except OSError: pass` at
lines 162-165 swallows it and the file persists. -/
theorem import_cleanup_counterexample :
    (runImport defaultConfig importEnvWriteFails).tmpConfigCreated = true ∧
    (runImport defaultConfig importEnvWriteFails).unlinkCalled = false ∧
    (runImport defaultConfig importEnvWriteFails).tmpConfigExistsAfter = true ∧
    (runImport defaultConfig importEnvUnlinkFails).tmpConfigCreated = true ∧
    (runImport defaultConfig importEnvUnlinkFails).unlinkCalled = true ∧
    (runImport defaultConfig importEnvUnlinkFails).tmpConfigExistsAfter = true := by
  refine ⟨rfl, rfl, rfl, rfl, rfl, rfl⟩

/-- C6 (amended). On every exit path on which the `resolved_config`
variable was assigned — the temp file was created and the config text
successfully written to it: success, non-zero exit, missing executable,
timeout, and any exception raised after the assignment — the `finally`
clause attempts the unlink, and the file is deleted before
`import_music_with_beets` returns whenever that unlink does not itself
fail with a (swallowed) `OSError`; when the unlink fails the file
persists, and on the path where writing to the just-created temp file
raises, no unlink is attempted and the created file persists. -/
theorem import_cleanup_amended (cfg : Config) (env : ImportEnv)
    (h : (runImport cfg env).resolvedConfigSet = true) :
    (runImport cfg env).tmpConfigCreated = true ∧
    (runImport cfg env).unlinkCalled = true ∧
    (env.unlinkRaises = false → (runImport cfg env).tmpConfigExistsAfter = false) ∧
    (env.unlinkRaises = true → (runImport cfg env).tmpConfigExistsAfter = true) := by
  cases hc : env.configText with
  | none =>
    rw [runImport, importTryBody, hc] at h
    exact absurd h (by simp)
  | some raw =>
    cases hw : env.tmpWriteError with
    | some e =>
      rw [runImport, importTryBody, hc] at h
      simp only [hw] at h
      exact absurd h (by simp)
    | none =>
      rw [runImport, importTryBody, hc]
      simp only [hw]
      refine ⟨by simp, by simp, fun hu => by simp [hu], fun hu => by simp [hu]⟩

/-- Witness for C6 (amended): a concrete invocation on which the write
succeeded and the unlink does not fail, so the file is deleted. -/
theorem import_cleanup_amended_witness :
    (runImport defaultConfig importEnvOkay).resolvedConfigSet = true ∧
    (runImport defaultConfig importEnvOkay).unlinkCalled = true ∧
    (runImport defaultConfig importEnvOkay).tmpConfigExistsAfter = false := by
  have h := import_cleanup_amended defaultConfig importEnvOkay rfl
  exact ⟨rfl, h.2.1, h.2.2.1 rfl⟩

/-! ## Claim C8: classification of import outcomes -/

/-- C8. The import invoker classifies the subprocess outcome exactly as
lines 140-159 prescribe: exit code zero is a success carrying stdout (or
a generic success message when stdout is empty); a non-zero exit is a
failure carrying stderr and stdout joined by a newline, keeping only the
non-empty ones (generic failure message when both are empty); a missing
executable is a failure naming beets; exceeding the 300-second timeout is
a failure with the timeout diagnostic. -/
theorem import_outcome_classification (cfg : Config) (raw : String) (rc : Int)
    (out err : String) (ur : Bool) :
    ((runImport cfg ⟨some raw, none, .completed 0 out err, ur⟩).ok = true) ∧
    (out ≠ "" → (runImport cfg ⟨some raw, none, .completed 0 out err, ur⟩).msg = out) ∧
    ((runImport cfg ⟨some raw, none, .completed 0 "" err, ur⟩).msg = "Beets import complete.") ∧
    (rc ≠ 0 → (runImport cfg ⟨some raw, none, .completed rc out err, ur⟩).ok = false) ∧
    (rc ≠ 0 → err ≠ "" → out ≠ "" →
      (runImport cfg ⟨some raw, none, .completed rc out err, ur⟩).msg = err ++ "\n" ++ out) ∧
    (rc ≠ 0 → err = "" → out ≠ "" →
      (runImport cfg ⟨some raw, none, .completed rc out err, ur⟩).msg = out) ∧
    (rc ≠ 0 → err ≠ "" → out = "" →
      (runImport cfg ⟨some raw, none, .completed rc out err, ur⟩).msg = err) ∧
    (rc ≠ 0 → err = "" → out = "" →
      (runImport cfg ⟨some raw, none, .completed rc out err, ur⟩).msg = "Beets import failed.") ∧
    ((runImport cfg ⟨some raw, none, .fileNotFound, ur⟩).ok = false ∧
      (runImport cfg ⟨some raw, none, .fileNotFound, ur⟩).msg
        = "beets not found — is it installed in the container?") ∧
    ((runImport cfg ⟨some raw, none, .timeout, ur⟩).ok = false ∧
      (runImport cfg ⟨some raw, none, .timeout, ur⟩).msg
        = "Beets import timed out after 5 minutes.") ∧
    beetsImportTimeoutSeconds = 300 := by
  refine ⟨?_, ?_, ?_, ?_, ?_, ?_, ?_, ?_, ⟨rfl, rfl⟩, ⟨rfl, rfl⟩, rfl⟩
  · rfl
  · intro ho
    simp [runImport, importTryBody, beetsResult, ho]
  · rfl
  · intro hrc
    simp [runImport, importTryBody, beetsResult, hrc]
  · intro hrc he ho
    have hne : err ++ "\n" ++ out ≠ "" := by
      intro hcontra
      have hl := congrArg String.length hcontra
      rw [String.length_append, String.length_append] at hl
      have e1 : "\n".length = 1 := rfl
      have e2 : "".length = 0 := rfl
      omega
    simp [runImport, importTryBody, beetsResult, pyJoin, hrc, he, ho, hne]
  · intro hrc he ho
    simp [runImport, importTryBody, beetsResult, pyJoin, hrc, he, ho]
  · intro hrc he ho
    simp [runImport, importTryBody, beetsResult, pyJoin, hrc, he, ho]
  · intro hrc he ho
    simp [runImport, importTryBody, beetsResult, pyJoin, hrc, he, ho]

/-- Witness for C8: a concrete non-zero exit with both streams non-empty. -/
theorem import_outcome_classification_witness :
    (runImport defaultConfig ⟨some "x", none, .completed 2 "out text" "err text", false⟩).ok
      = false ∧
    (runImport defaultConfig ⟨some "x", none, .completed 2 "out text" "err text", false⟩).msg
      = "err text" ++ "\n" ++ "out text" ∧
    (runImport defaultConfig ⟨some "x", none, .completed 0 "imported!" "", false⟩).msg
      = "imported!" := by
  have h := import_outcome_classification defaultConfig "x" 2 "out text" "err text" false
  have h2 := import_outcome_classification defaultConfig "x" 2 "imported!" "" false
  exact ⟨h.2.2.2.1 (by decide), h.2.2.2.2.1 (by decide) (by decide) (by decide),
    h2.2.1 (by decide)⟩

/-! ## Claim C1: unknown workflow values -/

/-- C1 counterexample: with workflow `"bogus"` and no file part, the
handler answers 400 with `ok:false`, but the message is
`"No file provided."` (line 195), which does not name `"bogus"` — so the
claim's parenthetical "whether or not a file part is present" fails. -/
theorem upload_unknown_workflow_counterexample :
    (upload defaultConfig ⟨"bogus", none, none⟩ envNotZip).status = 400 ∧
    (upload defaultConfig ⟨"bogus", none, none⟩ envNotZip).ok = false ∧
    (upload defaultConfig ⟨"bogus", none, none⟩ envNotZip).message = "No file provided." ∧
    isSubB "bogus".data (upload defaultConfig ⟨"bogus", none, none⟩ envNotZip).message.data
      = false := by
  refine ⟨rfl, rfl, rfl, by decide⟩

/-- C1 (amended). For a workflow value other than `text`, `music` and
`inbox`, the handler returns HTTP 400 with `ok:false`; when a file part
is present the message names the unrecognized value
(`"Unknown workflow: <value>"`), and when no file part is present the
message is `"No file provided."` and does not name it. -/
theorem upload_unknown_workflow (cfg : Config) (env : UploadEnv) (wf : String)
    (fpart : Option FilePart) (txt : Option String)
    (h1 : wf ≠ "text") (h2 : wf ≠ "music") (h3 : wf ≠ "inbox") :
    (upload cfg ⟨wf, fpart, txt⟩ env).status = 400 ∧
    (upload cfg ⟨wf, fpart, txt⟩ env).ok = false ∧
    (∀ f, fpart = some f →
      (upload cfg ⟨wf, fpart, txt⟩ env).message = "Unknown workflow: " ++ wf) ∧
    (fpart = none → (upload cfg ⟨wf, fpart, txt⟩ env).message = "No file provided.") := by
  cases fpart with
  | none =>
    refine ⟨by simp [upload, h1], by simp [upload, h1], ?_, fun _ => by simp [upload, h1]⟩
    intro f hf
    exact absurd hf (by simp)
  | some f0 =>
    refine ⟨by simp [upload, h1, h2, h3], by simp [upload, h1, h2, h3], ?_,
      fun h => by simp at h⟩
    intro f _
    simp [upload, h1, h2, h3]

/-- Witness for C1 (amended) at workflow `"bogus"` with a file part. -/
theorem upload_unknown_workflow_witness :
    (upload defaultConfig ⟨"bogus", some ⟨some "a.bin", []⟩, none⟩ envNotZip).status = 400 ∧
    (upload defaultConfig ⟨"bogus", some ⟨some "a.bin", []⟩, none⟩ envNotZip).message
      = "Unknown workflow: " ++ "bogus" := by
  have h := upload_unknown_workflow defaultConfig envNotZip "bogus"
    (some ⟨some "a.bin", []⟩) none (by decide) (by decide) (by decide)
  exact ⟨h.1, h.2.2.1 ⟨some "a.bin", []⟩ rfl⟩

/-! ## Claim C2: music payload that is not a zip archive -/

/-- C2. A `music` submission whose payload is not a valid zip archive gets
exactly `{ok:false, message:"File is not a zip archive."}` with HTTP 400
(line 206); the import tool is never invoked and nothing is written
outside the scoped temporary directory (in particular, not to the music
store). -/
theorem upload_music_not_zip (cfg : Config) (env : UploadEnv) (f : FilePart)
    (txt : Option String) (hz : env.isZip f.content = false) :
    (upload cfg ⟨"music", some f, txt⟩ env).status = 400 ∧
    (upload cfg ⟨"music", some f, txt⟩ env).ok = false ∧
    (upload cfg ⟨"music", some f, txt⟩ env).message = "File is not a zip archive." ∧
    (upload cfg ⟨"music", some f, txt⟩ env).importCalls = 0 ∧
    (∀ w ∈ (upload cfg ⟨"music", some f, txt⟩ env).writes, w.target = WriteTarget.tmp) := by
  refine ⟨by simp [upload, hz], by simp [upload, hz], by simp [upload, hz],
    by simp [upload, hz], ?_⟩
  intro w hw
  simp [upload, hz] at hw
  rw [hw]

/-- Witness for C2. -/
theorem upload_music_not_zip_witness :
    (upload defaultConfig ⟨"music", some ⟨some "a.zip", []⟩, none⟩ envNotZip).status = 400 ∧
    (upload defaultConfig ⟨"music", some ⟨some "a.zip", []⟩, none⟩ envNotZip).message
      = "File is not a zip archive." ∧
    (upload defaultConfig ⟨"music", some ⟨some "a.zip", []⟩, none⟩ envNotZip).importCalls = 0 := by
  have h := upload_music_not_zip defaultConfig envNotZip ⟨some "a.zip", []⟩ none rfl
  exact ⟨h.1, h.2.2.1, h.2.2.2.1⟩

/-! ## Claim C3: import failure short-circuits the rescan -/

/-- C3. When the import step fails on a valid archive, the handler
returns the import failure message in a 200-status JSON body with
`ok:false` (line 226 passes no status code) and never contacts the
rescan endpoint. -/
theorem upload_music_import_failed (cfg : Config) (env : UploadEnv) (f : FilePart)
    (txt : Option String) (hz : env.isZip f.content = true)
    (hfail : (runImport cfg env.importEnv).ok = false) :
    (upload cfg ⟨"music", some f, txt⟩ env).status = 200 ∧
    (upload cfg ⟨"music", some f, txt⟩ env).ok = false ∧
    (upload cfg ⟨"music", some f, txt⟩ env).message = (runImport cfg env.importEnv).msg ∧
    (upload cfg ⟨"music", some f, txt⟩ env).rescanCalls = 0 ∧
    (upload cfg ⟨"music", some f, txt⟩ env).importCalls = 1 := by
  refine ⟨by simp [upload, hz, hfail], by simp [upload, hz, hfail],
    by simp [upload, hz, hfail], by simp [upload, hz, hfail], by simp [upload, hz, hfail]⟩

/-- Witness for C3: a stub import exiting 2 with both streams captured. -/
theorem upload_music_import_failed_witness :
    (upload defaultConfig ⟨"music", some ⟨some "a.zip", []⟩, none⟩ envImportFail).status = 200 ∧
    (upload defaultConfig ⟨"music", some ⟨some "a.zip", []⟩, none⟩ envImportFail).ok = false ∧
    (upload defaultConfig ⟨"music", some ⟨some "a.zip", []⟩, none⟩ envImportFail).message
      = "err text" ++ "\n" ++ "out text" ∧
    (upload defaultConfig ⟨"music", some ⟨some "a.zip", []⟩, none⟩ envImportFail).rescanCalls
      = 0 := by
  have h := upload_music_import_failed defaultConfig envImportFail ⟨some "a.zip", []⟩ none rfl rfl
  exact ⟨h.1, h.2.1, h.2.2.1.trans (by decide), h.2.2.2.1⟩

/-! ## Claim C4: import success triggers exactly one rescan -/

/-- C4. When the import step succeeds on a valid archive, the handler
contacts the rescan notifier exactly once and answers `ok:true` with
HTTP 200; the rescan oracle is universally quantified, so a failing
notifier does not change the `ok:true` outcome. -/
theorem upload_music_import_success (cfg : Config) (env : UploadEnv) (f : FilePart)
    (txt : Option String) (hz : env.isZip f.content = true)
    (hok : (runImport cfg env.importEnv).ok = true) :
    (upload cfg ⟨"music", some f, txt⟩ env).rescanCalls = 1 ∧
    (upload cfg ⟨"music", some f, txt⟩ env).ok = true ∧
    (upload cfg ⟨"music", some f, txt⟩ env).status = 200 ∧
    (upload cfg ⟨"music", some f, txt⟩ env).importCalls = 1 := by
  refine ⟨by simp [upload, hz, hok], by simp [upload, hz, hok],
    by simp [upload, hz, hok], by simp [upload, hz, hok]⟩

/-- Witness for C4, with a rescan notifier that fails: `ok` stays true. -/
theorem upload_music_import_success_witness :
    (upload defaultConfig ⟨"music", some ⟨some "a.zip", []⟩, none⟩ envRescanDown).rescanCalls
      = 1 ∧
    (upload defaultConfig ⟨"music", some ⟨some "a.zip", []⟩, none⟩ envRescanDown).ok = true := by
  have h := upload_music_import_success defaultConfig envRescanDown ⟨some "a.zip", []⟩ none rfl rfl
  exact ⟨h.1, h.2.1⟩

/-! ## Claim C5: the rescan status in the success message -/

/-- C5 counterexample: when the rescan notifier succeeds, the returned
message contains the rescan diagnostic twice (line 231 already bakes it
into the success message and line 233 appends it again), so it is not the
success message with the status appended once. -/
theorem upload_music_message_counterexample :
    (upload defaultConfig ⟨"music", some ⟨some "album.zip", []⟩, none⟩ envImportOk).message
      = "Music imported successfully. Navidrome rescan triggered. Navidrome rescan triggered." ∧
    (upload defaultConfig ⟨"music", some ⟨some "album.zip", []⟩, none⟩ envImportOk).message
      ≠ "Music imported successfully." ++ " " ++ "Navidrome rescan triggered." ∧
    isSubB "Navidrome rescan triggered. Navidrome rescan triggered.".data
      (upload defaultConfig ⟨"music", some ⟨some "album.zip", []⟩, none⟩
          envImportOk).message.data
      = true := by
  refine ⟨by decide, by decide, by decide⟩

/-- C5 (amended). After a successful import, when the rescan notifier
fails its diagnostic is appended once after the success message; when it
succeeds, the success message already ends with
"Navidrome rescan triggered." and the notifier's identical diagnostic is
appended after it again, so the rescan status appears twice. -/
theorem upload_music_message_amended (cfg : Config) (env : UploadEnv) (f : FilePart)
    (txt : Option String) (hz : env.isZip f.content = true)
    (hok : (runImport cfg env.importEnv).ok = true) :
    (env.rescanExn = none →
      (upload cfg ⟨"music", some f, txt⟩ env).message
        = "Music imported successfully. Navidrome rescan triggered." ++ " "
            ++ "Navidrome rescan triggered.") ∧
    (∀ e, env.rescanExn = some e →
      (upload cfg ⟨"music", some f, txt⟩ env).message
        = "Music imported successfully." ++ " " ++ ("Navidrome rescan failed: " ++ e)) := by
  constructor
  · intro hn
    simp [upload, hz, hok, navidrome_rescan, hn]
  · intro e he
    have hne : "Navidrome rescan failed: " ++ e ≠ "" := by
      intro hcontra
      have hl := congrArg String.length hcontra
      rw [String.length_append] at hl
      have e1 : "Navidrome rescan failed: ".length = 25 := rfl
      have e2 : "".length = 0 := rfl
      omega
    simp [upload, hz, hok, navidrome_rescan, he, hne]

/-- Witness for C5 (amended), on the failing-notifier branch. -/
theorem upload_music_message_amended_witness :
    (upload defaultConfig ⟨"music", some ⟨some "album.zip", []⟩, none⟩ envRescanDown).message
      = "Music imported successfully." ++ " "
          ++ ("Navidrome rescan failed: " ++ "connection refused") := by
  have h := upload_music_message_amended defaultConfig envRescanDown ⟨some "album.zip", []⟩
    none rfl rfl
  exact h.2 "connection refused" rfl

/-! ## Claim C10: inbox destinations are not sanitized -/

/-- C10. The inbox destination is the inbox directory joined (with
`pathlib` semantics) with the client-supplied filename used verbatim,
with the literal name `upload` substituted when no filename is supplied;
no sanitization occurs, and the filename `../../etc/passwd` makes the
write land at `/data/inbox/../../etc/passwd`, which resolves to
`/etc/passwd`, outside the inbox store. -/
theorem upload_inbox_path_unsanitized (cfg : Config) (env : UploadEnv) (fname : String)
    (content : List Nat) (henv : env.inboxError = none) (hf : fname ≠ "") :
    (upload cfg ⟨"inbox", some ⟨some fname, content⟩, none⟩ env).writes
      = [⟨WriteTarget.inbox, pyPathJoin cfg.inbox_dir fname⟩] ∧
    (upload cfg ⟨"inbox", some ⟨none, content⟩, none⟩ env).writes
      = [⟨WriteTarget.inbox, pyPathJoin cfg.inbox_dir "upload"⟩] ∧
    pyPathJoin "/data/inbox" "../../etc/passwd" = "/data/inbox/../../etc/passwd" ∧
    normalizePath (pyPathJoin "/data/inbox" "../../etc/passwd") = ["etc", "passwd"] ∧
    isUnderB "/data/inbox" (pyPathJoin "/data/inbox" "../../etc/passwd") = false := by
  refine ⟨?_, ?_, by decide, by decide, by decide⟩
  · simp [upload, henv, pyFilename, hf]
  · simp [upload, henv, pyFilename]

/-- Witness for C10 at the traversal filename. -/
theorem upload_inbox_path_unsanitized_witness :
    (upload defaultConfig ⟨"inbox", some ⟨some "../../etc/passwd", [7]⟩, none⟩
        envImportOk).writes
      = [⟨WriteTarget.inbox, pyPathJoin defaultConfig.inbox_dir "../../etc/passwd"⟩] ∧
    isUnderB "/data/inbox" (pyPathJoin "/data/inbox" "../../etc/passwd") = false := by
  have h := upload_inbox_path_unsanitized defaultConfig envImportOk "../../etc/passwd" [7]
    rfl (by decide)
  exact ⟨h.1, h.2.2.2.2⟩

end Dropzone
